import Mathlib

/-!
Verification of the StreamFX auto-framing filter
(`src/source/filters/filter-autoframing.cpp`).

The development shallowly embeds the tracking / prediction / frame-composition
pipeline of `autoframing_instance` over the rationals (`ℚ` stands in for the
C++ `float`; arithmetic is exact, rounding is not modelled).  Where the C++
divides by zero, IEEE-754 produces an infinity whose only use in this code is
an ordering comparison; the embedding models exactly that comparison (see
`ltDiv`).  Structures and functions keep the source's names where Lean allows
it.  Line numbers in doc comments refer to `filter-autoframing.cpp`.
-/

set_option maxRecDepth 40000

namespace Autoframing

/-- 2-component vector (`vec2`), as used throughout the filter. -/
structure Vec2 where
  x : ℚ
  y : ℚ
deriving DecidableEq

/-- Model of `std::clamp<float>(v, lo, hi)`: `lo` if `v < lo`, `hi` if `hi < v`, else `v`. -/
def clampQ (v lo hi : ℚ) : ℚ :=
  if v < lo then lo else if hi < v then hi else v

/-- The comparison `a < x / y` as computed on IEEE-754 floats, embedded over
`ℚ`.  For `y ≠ 0` this is the ordinary rational comparison.  For `y = 0` the
float quotient is `+∞` when `x > 0` (so the comparison holds for every finite
`a`), `-∞` when `x < 0` and NaN when `x = 0` (so it fails in both cases);
hence the condition degenerates to `0 < x`. -/
def ltDiv (a x y : ℚ) : Prop :=
  if y = 0 then 0 < x else a < x / y

instance (a x y : ℚ) : Decidable (ltDiv a x y) := by
  unfold ltDiv
  infer_instance

/-- The final crop target: centre (`_frame_pos`) and size (`_frame_size`). -/
structure FrameRectangle where
  pos : Vec2
  size : Vec2
deriving DecidableEq

/-- Effective aspect ratio of the final pass (lines 858-860): the configured
`_frame_aspect_ratio` when positive, otherwise the current frame's own
width/height ratio. -/
def effective_aspect (frame_aspect_ratio W H : ℚ) : ℚ :=
  if frame_aspect_ratio > 0 then frame_aspect_ratio else W / H

/-- Step 1 of the final pass (lines 862-869): inflate the candidate frame along
whichever axis is short of the target aspect ratio. -/
def aspect_inflate (aspect : ℚ) (r : FrameRectangle) : FrameRectangle :=
  if ltDiv aspect r.size.x r.size.y then
    { r with size := ⟨r.size.x, r.size.x / aspect⟩ }
  else
    { r with size := ⟨r.size.y * aspect, r.size.y⟩ }

/-- Step 2 of the final pass (lines 871-881): clamp the rectangle's four edges
independently to `[0, W] × [0, H]` and recompute centre and size from the
clamped edges (`rect.x`/`rect.z` are the x-edges, `rect.y`/`rect.w` the
y-edges of the C++). -/
def clamp_to_frame (W H : ℚ) (r : FrameRectangle) : FrameRectangle :=
  { pos := ⟨(clampQ (r.pos.x - r.size.x / 2) 0 W +
              clampQ (r.pos.x + r.size.x / 2) 0 W) / 2,
            (clampQ (r.pos.y - r.size.y / 2) 0 H +
              clampQ (r.pos.y + r.size.y / 2) 0 H) / 2⟩,
    size := ⟨clampQ (r.pos.x + r.size.x / 2) 0 W -
              clampQ (r.pos.x - r.size.x / 2) 0 W,
             clampQ (r.pos.y + r.size.y / 2) 0 H -
              clampQ (r.pos.y - r.size.y / 2) 0 H⟩ }

/-- Step 3 of the final pass (lines 883-890): re-apply the target aspect ratio
to the clamped box by shrinking whichever axis is now too large. -/
def aspect_shrink (aspect : ℚ) (r : FrameRectangle) : FrameRectangle :=
  if ltDiv aspect r.size.x r.size.y then
    { r with size := ⟨r.size.y * aspect, r.size.y⟩ }
  else
    { r with size := ⟨r.size.x, r.size.x / aspect⟩ }

/-- The complete three-step aspect/clamp/aspect pass at the end of
`tracking_tick` (lines 857-891). -/
def compose_pass (frame_aspect_ratio W H : ℚ) (r : FrameRectangle) : FrameRectangle :=
  aspect_shrink (effective_aspect frame_aspect_ratio W H)
    (clamp_to_frame W H
      (aspect_inflate (effective_aspect frame_aspect_ratio W H) r))

/-- Per-element aspect-ratio correction of the padded box (lines 769-777):
if the configured ratio is positive and the padded box is at least as wide as
the target ratio, the height is grown to match, otherwise the width. -/
def aspected_size_of (frame_aspect_ratio : ℚ) (pad_size : Vec2) : Vec2 :=
  if frame_aspect_ratio > 0 then
    if pad_size.x / pad_size.y ≥ frame_aspect_ratio then
      ⟨pad_size.x, pad_size.x / frame_aspect_ratio⟩
    else
      ⟨pad_size.y * frame_aspect_ratio, pad_size.y⟩
  else pad_size

/-- The constant `ST_KALMAN_EEC` (line 102): the initial error covariance used whenever a
filter is (re)constructed. -/
def ST_KALMAN_EEC : ℚ := 1

/-- Modelled from the spec: `streamfx::util::math::kalman1D` is declared in a
utility header that is not under `src/`; §4.1 of the spec specifies it as the
scalar Kalman recursion with `construct(processNoise, measurementNoise,
initialErrorCovariance, initialEstimate)` (matching the four-element braced
initializers of the source), `filter(measurement)` performing predict→update,
and `get()` a pure read of the estimate. -/
structure kalman1D where
  pnc : ℚ
  mnc : ℚ
  eec : ℚ
  est : ℚ
deriving DecidableEq

/-- Modelled from the spec (§4.1): `get()` is a pure read of the estimate. -/
def kalman1D.get (k : kalman1D) : ℚ := k.est

/-- Modelled from the spec (§4.1): predicted covariance `P' = P + Q`, gain
`K = P' / (P' + R)`, estimate `x += K·(measurement − x)`, covariance
`P = (1 − K)·P'`. -/
def kalman1D.filter (k : kalman1D) (measurement : ℚ) : kalman1D :=
  { k with
    est := k.est + (k.eec + k.pnc) / (k.eec + k.pnc + k.mnc) * (measurement - k.est),
    eec := (1 - (k.eec + k.pnc) / (k.eec + k.pnc + k.mnc)) * (k.eec + k.pnc) }

/-- Structure `track_el` — a tracked element.  The `id` field stands for the allocation
identity of the C++ `std::shared_ptr<track_el>`: the predicted-element
`std::map` is keyed by it, and ids are handed out in increasing order of
allocation so that the map's iteration order models the pointer order. -/
structure track_el where
  id : ℕ
  pos : Vec2
  size : Vec2
  vel : Vec2
  age : ℚ
  confidence : ℚ
deriving DecidableEq

/-- Structure `pred_el` — the smoothing companion of one `track_el`. -/
structure pred_el where
  filter_pos_x : kalman1D
  filter_pos_y : kalman1D
  filter_size_x : kalman1D
  filter_size_y : kalman1D
  mp_pos : Vec2
  offset_pos : Vec2
  pad_size : Vec2
  aspected_size : Vec2
deriving DecidableEq

/-- The `tracking_mode` enumeration (Solo / Group). -/
inductive tracking_mode
  | SOLO
  | GROUP
deriving DecidableEq

/-- Lookup `_predicted_elements.find(trck)` on the identity-keyed `std::map`,
modelled on an association list. -/
def mapFind (k : ℕ) : List (ℕ × pred_el) → Option pred_el
  | [] => none
  | kv :: rest => if kv.1 = k then some kv.2 else mapFind k rest

/-- Model of `std::map::insert_or_assign`, keeping the association list sorted by key
exactly as the `std::map` keeps its entries sorted by pointer value. -/
def mapInsert (k : ℕ) (v : pred_el) : List (ℕ × pred_el) → List (ℕ × pred_el)
  | [] => [(k, v)]
  | kv :: rest =>
      if k < kv.1 then (k, v) :: kv :: rest
      else if k = kv.1 then (k, v) :: rest
      else kv :: mapInsert k v rest

/-- The mutable state of one `autoframing_instance` that the tracking pipeline
touches (configuration fields plus tracked/predicted elements and the frame
estimate; `size` is `_size`, the current frame dimensions). -/
structure InstanceState where
  track_mode : tracking_mode
  track_frequency : ℚ
  motion_prediction : ℚ
  motion_smoothing_kalman_pnc : ℚ
  motion_smoothing_kalman_mnc : ℚ
  frame_stability_kalman : ℚ
  frame_padding_prc : Bool × Bool
  frame_padding : Vec2
  frame_offset_prc : Bool × Bool
  frame_offset : Vec2
  frame_aspect_ratio : ℚ
  size : ℚ × ℚ
  track_frequency_counter : ℚ
  tracked_elements : List track_el
  predicted_elements : List (ℕ × pred_el)
  frame_pos_x : kalman1D
  frame_pos_y : kalman1D
  frame_size_x : kalman1D
  frame_size_y : kalman1D
  frame_pos : Vec2
  frame_size : Vec2
deriving DecidableEq

/-- The age/evict threshold `0.5f * (1.f / (1.f - _track_frequency))`
(line 672). -/
def eviction_threshold (track_frequency : ℚ) : ℚ :=
  (0.5 : ℚ) * (1 / (1 - track_frequency))

/-- The aging loop of `tracking_tick` (lines 674-697): every element's age is
incremented by the tick duration; elements whose age reaches the threshold are
dropped and their ids collected (the returned id list) so that the paired
`_predicted_elements.erase` calls can be applied. -/
def ageAndEvictList (dt thr : ℚ) : List track_el → List track_el × List ℕ
  | [] => ([], [])
  | el :: rest =>
      let el2 : track_el := { el with age := el.age + dt }
      let p := ageAndEvictList dt thr rest
      if el2.age ≥ thr then (p.1, el2.id :: p.2) else (el2 :: p.1, p.2)

/-- First block of `tracking_tick` (lines 671-698): age all tracked elements,
evict the too-old ones and erase their predicted companions. -/
def tick_age (s : InstanceState) (dt : ℚ) : InstanceState :=
  let p := ageAndEvictList dt (eviction_threshold s.track_frequency) s.tracked_elements
  { s with
    tracked_elements := p.1,
    predicted_elements := s.predicted_elements.filter (fun kv => !(p.2.contains kv.1)) }

/-- Creation of a missing predicted element (lines 705-715): the four filters
are seeded with the track's current position/size as initial estimate; the
derived vectors start zeroed (`std::make_shared` value-initializes them). -/
def newPred (s : InstanceState) (trck : track_el) : pred_el :=
  { filter_pos_x := ⟨s.motion_smoothing_kalman_pnc, s.motion_smoothing_kalman_mnc,
                     ST_KALMAN_EEC, trck.pos.x⟩,
    filter_pos_y := ⟨s.motion_smoothing_kalman_pnc, s.motion_smoothing_kalman_mnc,
                     ST_KALMAN_EEC, trck.pos.y⟩,
    filter_size_x := ⟨s.motion_smoothing_kalman_pnc, s.motion_smoothing_kalman_mnc,
                      ST_KALMAN_EEC, trck.size.x⟩,
    filter_size_y := ⟨s.motion_smoothing_kalman_pnc, s.motion_smoothing_kalman_mnc,
                      ST_KALMAN_EEC, trck.size.y⟩,
    mp_pos := ⟨0, 0⟩, offset_pos := ⟨0, 0⟩, pad_size := ⟨0, 0⟩, aspected_size := ⟨0, 0⟩ }

/-- Per-element body of the prediction loop (lines 721-777): motion
extrapolation, the four filter updates, offset position, padded size and
aspect-corrected size. -/
def updatePred (s : InstanceState) (dt : ℚ) (trck : track_el) (pred : pred_el) : pred_el :=
  let vel : Vec2 := ⟨trck.vel.x * s.motion_prediction * dt, trck.vel.y * s.motion_prediction * dt⟩
  let base : Vec2 := if trck.age > dt then pred.mp_pos else trck.pos
  let mp : Vec2 := ⟨base.x + vel.x, base.y + vel.y⟩
  let fpx := pred.filter_pos_x.filter mp.x
  let fpy := pred.filter_pos_y.filter mp.y
  let fsx := pred.filter_size_x.filter trck.size.x
  let fsy := pred.filter_size_y.filter trck.size.y
  let ox := fpx.get + (if s.frame_offset_prc.1 then fsx.get * (-s.frame_offset.x)
                       else s.frame_offset.x)
  let oy := fpy.get + (if s.frame_offset_prc.2 then fsy.get * (-s.frame_offset.y)
                       else s.frame_offset.y)
  let px := trck.size.x + (if s.frame_padding_prc.1 then fsx.get * (-s.frame_padding.x) * 2
                           else s.frame_padding.x * 2)
  let py := trck.size.y + (if s.frame_padding_prc.2 then fsy.get * (-s.frame_padding.y) * 2
                           else s.frame_padding.y * 2)
  { filter_pos_x := fpx, filter_pos_y := fpy, filter_size_x := fsx, filter_size_y := fsy,
    mp_pos := mp, offset_pos := ⟨ox, oy⟩, pad_size := ⟨px, py⟩,
    aspected_size := aspected_size_of s.frame_aspect_ratio ⟨px, py⟩ }

/-- One iteration of the prediction loop (lines 700-778): find or create the
predicted companion of `trck`, then store the updated companion under the
track's identity. -/
def predictStep (s : InstanceState) (dt : ℚ) (m : List (ℕ × pred_el)) (trck : track_el) :
    List (ℕ × pred_el) :=
  mapInsert trck.id
    (updatePred s dt trck
      (match mapFind trck.id m with
       | some p => p
       | none => newPred s trck)) m

/-- Second block of `tracking_tick` (lines 700-778): update (or create) the
predicted element of every live tracked element. -/
def tick_predict (s : InstanceState) (dt : ℚ) : InstanceState :=
  { s with predicted_elements :=
      s.tracked_elements.foldl (predictStep s dt) s.predicted_elements }

/-- The value `std::numeric_limits<float>::max()`, the initial minimum of the group-mode
union fold. -/
def FLT_MAX : ℚ := 340282346638528859811704183484516925440

/-- Group-mode union fold (lines 800-826): per-axis min of the box low edges
(seeded with `FLT_MAX`) and per-axis max of the box high edges (seeded with
zero). -/
def group_minmax : List (ℕ × pred_el) → Vec2 × Vec2 → Vec2 × Vec2
  | [], mm => mm
  | kv :: rest, mm =>
      let sz : Vec2 := ⟨kv.2.aspected_size.x * (0.5 : ℚ), kv.2.aspected_size.y * (0.5 : ℚ)⟩
      let low : Vec2 := ⟨kv.2.offset_pos.x - sz.x, kv.2.offset_pos.y - sz.y⟩
      let high : Vec2 := ⟨kv.2.offset_pos.x + sz.x, kv.2.offset_pos.y + sz.y⟩
      group_minmax rest
        (⟨if low.x < mm.1.x then low.x else mm.1.x, if low.y < mm.1.y then low.y else mm.1.y⟩,
         ⟨if high.x > mm.2.x then high.x else mm.2.x, if high.y > mm.2.y then high.y else mm.2.y⟩)

/-- The frame-candidate selection of `tracking_tick` (lines 780-855): Solo
takes the last entry of the predicted map (`rbegin`), Group the filtered union
box, and with no predicted elements the filters are fed the whole frame.  In
the Solo branch `need_filter` is false: the frame size is taken directly and
the frame-size filters are not touched. -/
def composeCandidate (s : InstanceState) : InstanceState :=
  if h : s.predicted_elements = [] then
    { s with
      frame_pos_x := s.frame_pos_x.filter (s.size.1 / 2),
      frame_pos_y := s.frame_pos_y.filter (s.size.2 / 2),
      frame_size_x := s.frame_size_x.filter s.size.1,
      frame_size_y := s.frame_size_y.filter s.size.2,
      frame_pos := ⟨(s.frame_pos_x.filter (s.size.1 / 2)).get,
                    (s.frame_pos_y.filter (s.size.2 / 2)).get⟩,
      frame_size := ⟨(s.frame_size_x.filter s.size.1).get,
                     (s.frame_size_y.filter s.size.2).get⟩ }
  else
    if s.track_mode = tracking_mode.SOLO then
      { s with
        frame_pos_x := s.frame_pos_x.filter (s.predicted_elements.getLast h).2.offset_pos.x,
        frame_pos_y := s.frame_pos_y.filter (s.predicted_elements.getLast h).2.offset_pos.y,
        frame_pos := ⟨(s.frame_pos_x.filter (s.predicted_elements.getLast h).2.offset_pos.x).get,
                      (s.frame_pos_y.filter (s.predicted_elements.getLast h).2.offset_pos.y).get⟩,
        frame_size := (s.predicted_elements.getLast h).2.aspected_size }
    else
      let mm := group_minmax s.predicted_elements (⟨FLT_MAX, FLT_MAX⟩, ⟨0, 0⟩)
      { s with
        frame_pos_x := s.frame_pos_x.filter ((mm.1.x + mm.2.x) / 2),
        frame_pos_y := s.frame_pos_y.filter ((mm.1.y + mm.2.y) / 2),
        frame_size_x := s.frame_size_x.filter (mm.2.x - mm.1.x),
        frame_size_y := s.frame_size_y.filter (mm.2.y - mm.1.y),
        frame_pos := ⟨(s.frame_pos_x.filter ((mm.1.x + mm.2.x) / 2)).get,
                      (s.frame_pos_y.filter ((mm.1.y + mm.2.y) / 2)).get⟩,
        frame_size := ⟨(s.frame_size_x.filter (mm.2.x - mm.1.x)).get,
                       (s.frame_size_y.filter (mm.2.y - mm.1.y)).get⟩ }

/-- Third block of `tracking_tick` (lines 780-892): candidate selection
followed by the three-step aspect/clamp/aspect pass on `_frame_pos` and
`_frame_size`. -/
def tick_compose (s : InstanceState) : InstanceState :=
  { composeCandidate s with
    frame_pos := (compose_pass (composeCandidate s).frame_aspect_ratio
      (composeCandidate s).size.1 (composeCandidate s).size.2
      ⟨(composeCandidate s).frame_pos, (composeCandidate s).frame_size⟩).pos,
    frame_size := (compose_pass (composeCandidate s).frame_aspect_ratio
      (composeCandidate s).size.1 (composeCandidate s).size.2
      ⟨(composeCandidate s).frame_pos, (composeCandidate s).frame_size⟩).size }

/-- Function `autoframing_instance::tracking_tick` (lines 669-896): age/evict, update
predictions, compose the frame, then advance the tracking counter. -/
def tracking_tick (s : InstanceState) (dt : ℚ) : InstanceState :=
  { tick_compose (tick_predict (tick_age s dt) dt) with
    track_frequency_counter :=
      (tick_compose (tick_predict (tick_age s dt) dt)).track_frequency_counter + dt }

/-- A predicted element with distinguishable field values, for concrete
instances. -/
def sample_pred : pred_el :=
  { filter_pos_x := ⟨1, 1, 1, 10⟩, filter_pos_y := ⟨1, 1, 1, 20⟩,
    filter_size_x := ⟨1, 1, 1, 30⟩, filter_size_y := ⟨1, 1, 1, 40⟩,
    mp_pos := ⟨1, 2⟩, offset_pos := ⟨3, 4⟩, pad_size := ⟨5, 6⟩, aspected_size := ⟨7, 8⟩ }

/-- The state set up by the `autoframing_instance` constructor (lines
175-197); the two frame-size filters are default-constructed in the source and
modelled like the explicitly initialized position filters. -/
def initial_state : InstanceState :=
  { track_mode := tracking_mode.SOLO, track_frequency := 1,
    motion_prediction := 0, motion_smoothing_kalman_pnc := 1,
    motion_smoothing_kalman_mnc := 1, frame_stability_kalman := 1,
    frame_padding_prc := (false, false), frame_padding := ⟨0, 0⟩,
    frame_offset_prc := (false, false), frame_offset := ⟨0, 0⟩,
    frame_aspect_ratio := 0, size := (1, 1), track_frequency_counter := 0,
    tracked_elements := [], predicted_elements := [],
    frame_pos_x := ⟨1, 1, 1, 1⟩, frame_pos_y := ⟨1, 1, 1, 1⟩,
    frame_size_x := ⟨1, 1, 1, 1⟩, frame_size_y := ⟨1, 1, 1, 1⟩,
    frame_pos := ⟨0, 0⟩, frame_size := ⟨1, 1⟩ }

/-- A Solo-mode state holding two predicted elements, the one with the larger
key (`7`) being the most recently inserted. -/
def solo_state : InstanceState :=
  { initial_state with
    predicted_elements := [(5, { sample_pred with offset_pos := ⟨100, 200⟩ }), (7, sample_pred)] }

/-- A state for concrete aging instances: tracking frequency `1/2` (threshold
1), one element about to be evicted and one that survives, each with a
predicted companion. -/
def aging_state : InstanceState :=
  { initial_state with
    track_frequency := mkRat 1 2,
    tracked_elements :=
      [{ id := 1, pos := ⟨0, 0⟩, size := ⟨1, 1⟩, vel := ⟨0, 0⟩, age := mkRat 1 2,
         confidence := 1 },
       { id := 2, pos := ⟨9, 9⟩, size := ⟨1, 1⟩, vel := ⟨0, 0⟩, age := 0,
         confidence := 1 }],
    predicted_elements := [(1, sample_pred), (2, sample_pred)] }

/-- Squared centroid distance.  The source compares Euclidean distances
(`vec2_dist`, line 1051) against thresholds that are always obtained without
negation, and squaring is strictly monotone on nonnegative reals, so the
embedding squares both sides of every comparison to stay inside `ℚ`. -/
def distSq (a b : Vec2) : ℚ :=
  (a.x - b.x) * (a.x - b.x) + (a.y - b.y) * (a.y - b.y)

/-- The inner match-search loop over the unmatched boxes (lines 1043-1058):
`idx` is the position of the list head within the original box list, `best`
is `match_iter` (the index of the best candidate so far) and `bestDst` is
`match_dst`, initialized to the maximum distance.  A candidate is accepted
only when it is strictly closer than the best so far and strictly below the
maximum distance. -/
def scanBoxes (elPos : Vec2) (maxDstSq : ℚ) :
    List track_el → ℕ → Option ℕ → ℚ → Option ℕ
  | [], _, best, _ => best
  | b :: rest, idx, best, bestDst =>
      if distSq b.pos elPos < bestDst ∧ distSq b.pos elPos < maxDstSq then
        scanBoxes elPos maxDstSq rest (idx + 1) (some idx) (distSq b.pos elPos)
      else
        scanBoxes elPos maxDstSq rest (idx + 1) best bestDst

/-- The whole match search for one track (`match_iter = boxes.end(); match_dst
= max_dst; ...`, lines 1043-1058), returning the index of the matched box. -/
def bestMatch (elPos : Vec2) (maxDstSq : ℚ) (boxes : List track_el) : Option ℕ :=
  scanBoxes elPos maxDstSq boxes 0 none maxDstSq

/-- The in-place update of a matched track (lines 1063-1073): position and
size are overwritten by the detection, velocity becomes
`oldPosition − newPosition`, age resets to 0 and confidence is copied. -/
def matched_el (el box : track_el) : track_el :=
  { el with
    pos := box.pos, size := box.size,
    vel := ⟨el.pos.x - box.pos.x, el.pos.y - box.pos.y⟩,
    age := 0, confidence := box.confidence }

/-- The association loop (lines 1041-1077): existing tracks have priority and
are scanned in order; a matched box is removed from the unmatched pool
(`boxes.erase(match_iter)`).  Returns the updated track list and the remaining
unmatched boxes.  (The `boxes[i]?` lookup cannot fail — `bestMatch` only
returns indices of the list — the `none` fallback merely keeps the function
total.) -/
def associateTracks (maxDstSq : ℚ) :
    List track_el → List track_el → List track_el × List track_el
  | [], boxes => ([], boxes)
  | el :: rest, boxes =>
      match bestMatch el.pos maxDstSq boxes with
      | none =>
          (el :: (associateTracks maxDstSq rest boxes).1,
            (associateTracks maxDstSq rest boxes).2)
      | some i =>
          match boxes[i]? with
          | none =>
              (el :: (associateTracks maxDstSq rest boxes).1,
                (associateTracks maxDstSq rest boxes).2)
          | some box =>
              (matched_el el box ::
                  (associateTracks maxDstSq rest (boxes.eraseIdx i)).1,
                (associateTracks maxDstSq rest (boxes.eraseIdx i)).2)

/-- One raw detection from the provider: `at(idx, confidence)` returns a rect
`(x, y, z, w)` (origin plus extent) and a confidence. -/
structure Detection where
  x : ℚ
  y : ℚ
  z : ℚ
  w : ℚ
  confidence : ℚ
deriving DecidableEq

/-- Construction of candidate boxes from the detections (lines 1015-1039):
detections below confidence `0.5` are skipped, the centred position is
`rect.xy + rect.zw/2`, velocity starts zero, age starts 0 and confidence is
clamped to at most 1.  `baseId` models the allocation order of the
`std::make_shared` calls: each accepted box receives the next id. -/
def mkBoxes (baseId : ℕ) : List Detection → List track_el
  | [] => []
  | d :: rest =>
      if d.confidence < (0.5 : ℚ) then mkBoxes baseId rest
      else
        { id := baseId,
          pos := ⟨d.x + d.z / 2, d.y + d.w / 2⟩,
          size := ⟨d.z, d.w⟩,
          vel := ⟨0, 0⟩,
          age := 0,
          confidence := if d.confidence > 1 then 1 else d.confidence } ::
          mkBoxes (baseId + 1) rest

/-- The squared maximum match distance (lines 1004-1006):
`max_dst = sqrt(W² + H²) · 0.667 · (1 / (1 − trackingFrequency))`, squared to
stay rational (see `distSq`; valid whenever the factor `1/(1−f)` is
nonnegative, i.e. the tracking frequency is below 1). -/
def max_dst_sq (W H f : ℚ) : ℚ :=
  (W * W + H * H) * ((0.667 : ℚ) * (0.667 : ℚ)) * ((1 / (1 - f)) * (1 / (1 - f)))

/-- Function `autoframing_instance::nvar_facedetection_process` (lines 997-1084),
restricted to its tracking effect: when the provider reports at least one
detection, the detections are turned into candidate boxes, associated against
the existing tracks, and every remaining unmatched box is appended as a new
tracked element.  (The early `_nvidia_fx` guard and the GPU call are outside
the state modelled here.) -/
def nvar_facedetection_process (baseId : ℕ) (dets : List Detection)
    (s : InstanceState) : InstanceState :=
  if dets.length = 0 then s
  else
    { s with tracked_elements :=
        (associateTracks (max_dst_sq s.size.1 s.size.2 s.track_frequency)
            s.tracked_elements (mkBoxes baseId dets)).1 ++
          (associateTracks (max_dst_sq s.size.1 s.size.2 s.track_frequency)
            s.tracked_elements (mkBoxes baseId dets)).2 }

/-- An existing track for concrete association instances. -/
def w_el : track_el :=
  { id := 0, pos := ⟨0, 0⟩, size := ⟨1, 1⟩, vel := ⟨0, 0⟩, age := 0, confidence := 1 }

/-- The nearer of two candidate boxes. -/
def w_box1 : track_el :=
  { id := 10, pos := ⟨1, 0⟩, size := ⟨2, 2⟩, vel := ⟨0, 0⟩, age := 0,
    confidence := mkRat 9 10 }

/-- The farther of two candidate boxes. -/
def w_box2 : track_el :=
  { id := 11, pos := ⟨3, 0⟩, size := ⟨2, 2⟩, vel := ⟨0, 0⟩, age := 0,
    confidence := mkRat 8 10 }

/-- The state reached from a fresh instance by one detection pass seeing a
single confident detection: it has one tracked element and no predicted
element. -/
def c7_state : InstanceState :=
  nvar_facedetection_process 0 [⟨10, 10, 4, 4, mkRat 9 10⟩] initial_state

/-- Whitespace accepted in front of a `%f` conversion. -/
def isWs (c : Char) : Bool :=
  c == ' ' || c == '\t' || c == '\n' || c == '\r'

/-- Longest digit run at the head of the text, as digit values plus the rest. -/
def takeDigits : List Char → List ℕ × List Char
  | [] => ([], [])
  | c :: rest =>
      if c.isDigit then
        ((c.toNat - 48) :: (takeDigits rest).1, (takeDigits rest).2)
      else ([], c :: rest)

/-- Digit run read as an integer. -/
def digitsToNat (ds : List ℕ) : ℕ :=
  ds.foldl (fun a d => a * 10 + d) 0

/-- Digit run after the decimal point read as a fraction in `[0, 1)`. -/
def fracVal (ds : List ℕ) : ℚ :=
  ds.foldr (fun d a => ((d : ℚ) + a) / 10) 0

/-- Optional sign at the head of a number. -/
def parseSign : List Char → ℚ × List Char
  | '-' :: rest => (-1, rest)
  | '+' :: rest => (1, rest)
  | cs => (1, cs)

/-- Scale factor contributed by an exponent digit run. -/
def expScale (sgn : ℚ) (n : ℕ) : ℚ :=
  if sgn < 0 then 1 / ((10 : ℚ) ^ n) else (10 : ℚ) ^ n

/-- Exponent body: optional sign, then at least one digit. -/
def expAfter (cs : List Char) : ℚ :=
  if (takeDigits (parseSign cs).2).1 = [] then 1
  else expScale (parseSign cs).1 (digitsToNat (takeDigits (parseSign cs).2).1)

/-- Optional `e`/`E` exponent of a `%f` conversion. -/
def expPart : List Char → ℚ
  | 'e' :: rest => expAfter rest
  | 'E' :: rest => expAfter rest
  | _ => 1

/-- Model of `sscanf(text, "%f", &value)` (line 252), over a character list:
skip leading whitespace, optional sign, then either digits with an optional
fraction, or a bare fraction `.digits`, followed by an optional exponent;
`none` when no number can be read (sscanf returning 0). -/
def parse_float_text (cs : List Char) : Option ℚ :=
  match (takeDigits (parseSign (cs.dropWhile isWs)).2).1,
      (takeDigits (parseSign (cs.dropWhile isWs)).2).2 with
  | [], '.' :: cs4 =>
      if (takeDigits cs4).1 = [] then none
      else some ((parseSign (cs.dropWhile isWs)).1 * fracVal (takeDigits cs4).1 *
        expPart (takeDigits cs4).2)
  | [], _ => none
  | ids, '.' :: cs4 =>
      some ((parseSign (cs.dropWhile isWs)).1 *
        ((digitsToNat ids : ℚ) + fracVal (takeDigits cs4).1) * expPart (takeDigits cs4).2)
  | ids, cs3 =>
      some ((parseSign (cs.dropWhile isWs)).1 * (digitsToNat ids : ℚ) * expPart cs3)

/-- The tracking-frequency block of `update()` (lines 249-261): with no text
the stored period is untouched; with text, a parsed value is interpreted as
seconds when the text contains an `s` (`strchr(text, 's')`), otherwise as a
rate and inverted (`Hz -> seconds`); when parsing fails the local buffer keeps
its default `0.` and that is stored. -/
def update_track_frequency (prev : ℚ) (text : Option (List Char)) : ℚ :=
  match text with
  | none => prev
  | some t =>
      match parse_float_text t with
      | some v => if t.contains 's' then v else 1 / v
      | none => 0

/-- Function `autoframing_instance::task_switch_provider` (lines 941-983), modelled on
its readiness effect: `_provider_ready` is cleared at entry, the unload and
load steps may raise (an `Except.error`), the whole body is wrapped in
`try`/`catch` (the function is total: the error is logged, never rethrown)
and the flag is set `true` only after both steps succeeded.  The result is the
final `_provider_ready`, independent of its previous value. -/
def task_switch_provider (_prevReady : Bool) (unloadResult loadResult : Except String Unit) :
    Bool :=
  match unloadResult with
  | Except.error _ => false
  | Except.ok _ =>
      match loadResult with
      | Except.error _ => false
      | Except.ok _ => true

/-- The skip condition of `video_render` (lines 470-477): the filter becomes a
passthrough when the provider is not ready, there is no target, or the target
is degenerate. -/
def video_render_skips (provider_ready has_target : Bool) (width height : ℕ) : Bool :=
  !provider_ready || !has_target || width == 0 || height == 0

/-- Modelled from the spec: `streamfx::util::math::lerp`, declared in a
utility header that is not under `src/`, is the standard linear interpolation
used to map the smoothing/stability percentages to filter noise parameters
(§6 of the spec). -/
def lerp (a b t : ℚ) : ℚ := a + (b - a) * t

/-- The filter-regeneration part of `update()` (lines 265-289): the new noise
parameters are computed from the motion-smoothing and framing-stability
fractions, every filter of every existing predicted element is re-created as
`{pnc, mnc, ST_KALMAN_EEC, oldFilter.get()}`, and the four frame-level filters
are re-created as `{stability, 1.0, ST_KALMAN_EEC, oldFilter.get()}`. -/
def update_filters (s : InstanceState) (motion_smoothing frame_stability : ℚ) :
    InstanceState :=
  { s with
    motion_smoothing_kalman_pnc := lerp 1 (1 / 100000) motion_smoothing,
    motion_smoothing_kalman_mnc := lerp (1 / 1000) 1000 motion_smoothing,
    frame_stability_kalman := lerp 1 (1 / 100000) frame_stability,
    predicted_elements := s.predicted_elements.map (fun kv =>
      (kv.1, { kv.2 with
        filter_pos_x := ⟨lerp 1 (1 / 100000) motion_smoothing,
          lerp (1 / 1000) 1000 motion_smoothing, ST_KALMAN_EEC, kv.2.filter_pos_x.get⟩,
        filter_pos_y := ⟨lerp 1 (1 / 100000) motion_smoothing,
          lerp (1 / 1000) 1000 motion_smoothing, ST_KALMAN_EEC, kv.2.filter_pos_y.get⟩,
        filter_size_x := ⟨lerp 1 (1 / 100000) motion_smoothing,
          lerp (1 / 1000) 1000 motion_smoothing, ST_KALMAN_EEC, kv.2.filter_size_x.get⟩,
        filter_size_y := ⟨lerp 1 (1 / 100000) motion_smoothing,
          lerp (1 / 1000) 1000 motion_smoothing, ST_KALMAN_EEC, kv.2.filter_size_y.get⟩ })),
    frame_pos_x := ⟨lerp 1 (1 / 100000) frame_stability, 1, ST_KALMAN_EEC,
      s.frame_pos_x.get⟩,
    frame_pos_y := ⟨lerp 1 (1 / 100000) frame_stability, 1, ST_KALMAN_EEC,
      s.frame_pos_y.get⟩,
    frame_size_x := ⟨lerp 1 (1 / 100000) frame_stability, 1, ST_KALMAN_EEC,
      s.frame_size_x.get⟩,
    frame_size_y := ⟨lerp 1 (1 / 100000) frame_stability, 1, ST_KALMAN_EEC,
      s.frame_size_y.get⟩ }

/-- A state with one predicted element under key 3. -/
def c10_state : InstanceState :=
  { initial_state with predicted_elements := [(3, sample_pred)] }

/-- The element of `c10_state` after regeneration with both fractions 0:
noise parameters reset, estimates kept. -/
def c10_expected : pred_el :=
  { sample_pred with
    filter_pos_x := ⟨1, 1 / 1000, 1, 10⟩,
    filter_pos_y := ⟨1, 1 / 1000, 1, 20⟩,
    filter_size_x := ⟨1, 1 / 1000, 1, 30⟩,
    filter_size_y := ⟨1, 1 / 1000, 1, 40⟩ }

lemma le_clampQ {lo hi : ℚ} (v : ℚ) (h : lo ≤ hi) : lo ≤ clampQ v lo hi := by
  unfold clampQ
  split_ifs <;> linarith

lemma clampQ_le_hi {lo hi : ℚ} (v : ℚ) (h : lo ≤ hi) : clampQ v lo hi ≤ hi := by
  unfold clampQ
  split_ifs <;> linarith

lemma clampQ_mono {lo hi v w : ℚ} (h : lo ≤ hi) (hvw : v ≤ w) :
    clampQ v lo hi ≤ clampQ w lo hi := by
  unfold clampQ
  split_ifs <;> linarith

lemma effective_aspect_pos (ratio W H : ℚ) (hW : 0 < W) (hH : 0 < H) :
    0 < effective_aspect ratio W H := by
  unfold effective_aspect
  split_ifs with h
  · exact h
  · exact div_pos hW hH

lemma aspect_inflate_pos (a : ℚ) (r : FrameRectangle) (ha : 0 < a)
    (hsx : 0 < r.size.x) (hsy : 0 < r.size.y) :
    0 < (aspect_inflate a r).size.x ∧ 0 < (aspect_inflate a r).size.y ∧
      (aspect_inflate a r).pos = r.pos := by
  unfold aspect_inflate
  split_ifs
  · exact ⟨hsx, div_pos hsx ha, rfl⟩
  · exact ⟨mul_pos hsy ha, hsy, rfl⟩

lemma clamp_to_frame_spec (W H : ℚ) (r : FrameRectangle) (hW : 0 ≤ W) (hH : 0 ≤ H)
    (hsx : 0 ≤ r.size.x) (hsy : 0 ≤ r.size.y) :
    0 ≤ (clamp_to_frame W H r).size.x ∧ 0 ≤ (clamp_to_frame W H r).size.y ∧
    0 ≤ (clamp_to_frame W H r).pos.x - (clamp_to_frame W H r).size.x / 2 ∧
    (clamp_to_frame W H r).pos.x + (clamp_to_frame W H r).size.x / 2 ≤ W ∧
    0 ≤ (clamp_to_frame W H r).pos.y - (clamp_to_frame W H r).size.y / 2 ∧
    (clamp_to_frame W H r).pos.y + (clamp_to_frame W H r).size.y / 2 ≤ H := by
  unfold clamp_to_frame
  have hx01 : clampQ (r.pos.x - r.size.x / 2) 0 W ≤ clampQ (r.pos.x + r.size.x / 2) 0 W :=
    clampQ_mono hW (by linarith)
  have hy01 : clampQ (r.pos.y - r.size.y / 2) 0 H ≤ clampQ (r.pos.y + r.size.y / 2) 0 H :=
    clampQ_mono hH (by linarith)
  have hx0 : 0 ≤ clampQ (r.pos.x - r.size.x / 2) 0 W := le_clampQ _ hW
  have hx1 : clampQ (r.pos.x + r.size.x / 2) 0 W ≤ W := clampQ_le_hi _ hW
  have hy0 : 0 ≤ clampQ (r.pos.y - r.size.y / 2) 0 H := le_clampQ _ hH
  have hy1 : clampQ (r.pos.y + r.size.y / 2) 0 H ≤ H := clampQ_le_hi _ hH
  refine ⟨by linarith, by linarith, by linarith, by linarith, by linarith, by linarith⟩

lemma aspect_shrink_containment (a W H : ℚ) (r : FrameRectangle) (ha : 0 < a)
    (hsx : 0 ≤ r.size.x) (hsy : 0 ≤ r.size.y)
    (hx0 : 0 ≤ r.pos.x - r.size.x / 2) (hx1 : r.pos.x + r.size.x / 2 ≤ W)
    (hy0 : 0 ≤ r.pos.y - r.size.y / 2) (hy1 : r.pos.y + r.size.y / 2 ≤ H) :
    0 ≤ (aspect_shrink a r).pos.x - (aspect_shrink a r).size.x / 2 ∧
    (aspect_shrink a r).pos.x + (aspect_shrink a r).size.x / 2 ≤ W ∧
    0 ≤ (aspect_shrink a r).pos.y - (aspect_shrink a r).size.y / 2 ∧
    (aspect_shrink a r).pos.y + (aspect_shrink a r).size.y / 2 ≤ H := by
  unfold aspect_shrink
  by_cases hc : ltDiv a r.size.x r.size.y
  · rw [if_pos hc]
    unfold ltDiv at hc
    by_cases hz : r.size.y = 0
    · rw [if_pos hz] at hc
      rw [hz]
      dsimp only
      refine ⟨by linarith, by linarith, ?_, ?_⟩
      · rw [hz] at hy0; linarith
      · rw [hz] at hy1; linarith
    · rw [if_neg hz] at hc
      have hsy' : 0 < r.size.y := lt_of_le_of_ne hsy (Ne.symm hz)
      have hlt : a * r.size.y < r.size.x := (lt_div_iff hsy').mp hc
      have hya : 0 < r.size.y * a := mul_pos hsy' ha
      have hcomm : r.size.y * a = a * r.size.y := mul_comm _ _
      dsimp only
      exact ⟨by linarith, by linarith, by linarith, by linarith⟩
  · rw [if_neg hc]
    unfold ltDiv at hc
    by_cases hz : r.size.y = 0
    · rw [if_pos hz] at hc
      have hx : r.size.x = 0 := le_antisymm (not_lt.mp hc) hsx
      dsimp only
      rw [hx]
      refine ⟨by rw [hx] at hx0; linarith, by rw [hx] at hx1; linarith, ?_, ?_⟩
      · rw [zero_div]; rw [hz] at hy0; linarith
      · rw [zero_div]; rw [hz] at hy1; linarith
    · rw [if_neg hz] at hc
      have hsy' : 0 < r.size.y := lt_of_le_of_ne hsy (Ne.symm hz)
      have hle : r.size.x ≤ a * r.size.y := (div_le_iff hsy').mp (not_lt.mp hc)
      have hdiv : r.size.x / a ≤ r.size.y := by
        rw [div_le_iff ha]
        calc r.size.x ≤ a * r.size.y := hle
        _ = r.size.y * a := mul_comm _ _
      have hdiv0 : 0 ≤ r.size.x / a := div_nonneg hsx ha.le
      dsimp only
      exact ⟨by linarith, by linarith, by linarith, by linarith⟩

/-- Claim C1: for every candidate frame rectangle entering the final
aspect-inflate / clamp-edges / aspect-shrink pass of `tracking_tick`
(lines 857-891), wherever the candidate lies relative to the frame, for any
positive frame dimensions and any configured target aspect ratio, all four
edges of the resulting `FrameRectangle` lie within `[0, W] × [0, H]`. -/
theorem C1_frame_containment (ratio W H : ℚ) (r : FrameRectangle)
    (hW : 0 < W) (hH : 0 < H) (hsx : 0 < r.size.x) (hsy : 0 < r.size.y) :
    0 ≤ (compose_pass ratio W H r).pos.x - (compose_pass ratio W H r).size.x / 2 ∧
    (compose_pass ratio W H r).pos.x + (compose_pass ratio W H r).size.x / 2 ≤ W ∧
    0 ≤ (compose_pass ratio W H r).pos.y - (compose_pass ratio W H r).size.y / 2 ∧
    (compose_pass ratio W H r).pos.y + (compose_pass ratio W H r).size.y / 2 ≤ H := by
  have ha : 0 < effective_aspect ratio W H := effective_aspect_pos ratio W H hW hH
  obtain ⟨h1x, h1y, _⟩ := aspect_inflate_pos (effective_aspect ratio W H) r ha hsx hsy
  obtain ⟨h2sx, h2sy, h2x0, h2x1, h2y0, h2y1⟩ :=
    clamp_to_frame_spec W H (aspect_inflate (effective_aspect ratio W H) r)
      hW.le hH.le h1x.le h1y.le
  exact aspect_shrink_containment (effective_aspect ratio W H) W H
    (clamp_to_frame W H (aspect_inflate (effective_aspect ratio W H) r)) ha
    h2sx h2sy h2x0 h2x1 h2y0 h2y1

/-- Concrete instance of `C1_frame_containment`: a 300 × 200 candidate centred
far off the left edge of a 1920 × 1080 frame with target ratio 1. -/
theorem C1_frame_containment_witness :
    (0:ℚ) < 1920 ∧ (0:ℚ) < 1080 ∧
    (0:ℚ) < (FrameRectangle.mk ⟨-500, 400⟩ ⟨300, 200⟩).size.x ∧
    (0:ℚ) < (FrameRectangle.mk ⟨-500, 400⟩ ⟨300, 200⟩).size.y ∧
    (0 ≤ (compose_pass 1 1920 1080 ⟨⟨-500, 400⟩, ⟨300, 200⟩⟩).pos.x -
        (compose_pass 1 1920 1080 ⟨⟨-500, 400⟩, ⟨300, 200⟩⟩).size.x / 2 ∧
      (compose_pass 1 1920 1080 ⟨⟨-500, 400⟩, ⟨300, 200⟩⟩).pos.x +
        (compose_pass 1 1920 1080 ⟨⟨-500, 400⟩, ⟨300, 200⟩⟩).size.x / 2 ≤ 1920 ∧
      0 ≤ (compose_pass 1 1920 1080 ⟨⟨-500, 400⟩, ⟨300, 200⟩⟩).pos.y -
        (compose_pass 1 1920 1080 ⟨⟨-500, 400⟩, ⟨300, 200⟩⟩).size.y / 2 ∧
      (compose_pass 1 1920 1080 ⟨⟨-500, 400⟩, ⟨300, 200⟩⟩).pos.y +
        (compose_pass 1 1920 1080 ⟨⟨-500, 400⟩, ⟨300, 200⟩⟩).size.y / 2 ≤ 1080) :=
  ⟨by decide, by decide, by decide, by decide,
   C1_frame_containment 1 1920 1080 ⟨⟨-500, 400⟩, ⟨300, 200⟩⟩
     (by decide) (by decide) (by decide) (by decide)⟩

/-- Claim C5: the per-element aspect correction of the padded box only
inflates: for positive padded sizes and a positive target ratio, both
components grow (weakly), the corrected box has exactly the target ratio, and
the branch kept unchanged is the one the claim names (width kept when the
padded box is at least as wide as the target, height kept otherwise). -/
theorem C5_aspect_only_inflates (a : ℚ) (p : Vec2) (ha : 0 < a)
    (hx : 0 < p.x) (hy : 0 < p.y) :
    p.x ≤ (aspected_size_of a p).x ∧ p.y ≤ (aspected_size_of a p).y ∧
    (aspected_size_of a p).x / (aspected_size_of a p).y = a ∧
    (a ≤ p.x / p.y →
      (aspected_size_of a p).x = p.x ∧ (aspected_size_of a p).y = p.x / a) ∧
    (p.x / p.y < a →
      (aspected_size_of a p).y = p.y ∧ (aspected_size_of a p).x = p.y * a) := by
  unfold aspected_size_of
  rw [if_pos ha]
  by_cases hc : p.x / p.y ≥ a
  · rw [if_pos hc]
    have hpy : a * p.y ≤ p.x := (le_div_iff hy).mp hc
    have h1 : p.y ≤ p.x / a := by
      rw [le_div_iff ha]
      calc p.y * a = a * p.y := mul_comm _ _
      _ ≤ p.x := hpy
    have h2 : p.x / (p.x / a) = a := by
      rw [div_div_eq_mul_div, mul_comm, mul_div_assoc, div_self hx.ne', mul_one]
    exact ⟨le_refl _, h1, h2, fun _ => ⟨rfl, rfl⟩, fun h => absurd hc (not_le.mpr h)⟩
  · rw [if_neg hc]
    have hc' : p.x / p.y < a := not_le.mp hc
    have hpx : p.x < a * p.y := (div_lt_iff hy).mp hc'
    have h1 : p.x ≤ p.y * a := by
      calc p.x ≤ a * p.y := hpx.le
      _ = p.y * a := mul_comm _ _
    have h2 : p.y * a / p.y = a := by
      rw [mul_comm, mul_div_assoc, div_self hy.ne', mul_one]
    exact ⟨h1, le_refl _, h2, fun h => absurd hc' (not_lt.mpr h), fun _ => ⟨rfl, rfl⟩⟩

/-- Concrete instance of `C5_aspect_only_inflates`: a 200 × 300 padded box
against target ratio 2 (the padded box is too tall, so the width grows). -/
theorem C5_aspect_only_inflates_witness :
    (0:ℚ) < 2 ∧ (0:ℚ) < 200 ∧ (0:ℚ) < 300 ∧
    ((200:ℚ) ≤ (aspected_size_of 2 ⟨200, 300⟩).x ∧
      (300:ℚ) ≤ (aspected_size_of 2 ⟨200, 300⟩).y ∧
      (aspected_size_of 2 ⟨200, 300⟩).x / (aspected_size_of 2 ⟨200, 300⟩).y = 2 ∧
      ((2:ℚ) ≤ (200:ℚ) / 300 →
        (aspected_size_of 2 ⟨200, 300⟩).x = 200 ∧
        (aspected_size_of 2 ⟨200, 300⟩).y = 200 / 2) ∧
      ((200:ℚ) / 300 < 2 →
        (aspected_size_of 2 ⟨200, 300⟩).y = 300 ∧
        (aspected_size_of 2 ⟨200, 300⟩).x = 300 * 2)) :=
  ⟨by decide, by decide, by decide,
   C5_aspect_only_inflates 2 ⟨200, 300⟩ (by decide) (by decide) (by decide)⟩

/-- Claim C4: for every tracked element processed by `tracking_tick`, the raw
motion-predicted position is, per axis, (the previous motion-predicted
position if `age > dt`, else the track's current position) plus
`velocity · motionPredictionGain · dt`; it is stored back as the element's
motion-predicted position and that stored value is what the two position
filters are fed. -/
theorem C4_motion_prediction (s : InstanceState) (dt : ℚ) (trck : track_el) (pred : pred_el) :
    (updatePred s dt trck pred).mp_pos =
      ⟨(if trck.age > dt then pred.mp_pos.x else trck.pos.x) +
          trck.vel.x * s.motion_prediction * dt,
        (if trck.age > dt then pred.mp_pos.y else trck.pos.y) +
          trck.vel.y * s.motion_prediction * dt⟩ ∧
    (updatePred s dt trck pred).filter_pos_x =
      pred.filter_pos_x.filter ((updatePred s dt trck pred).mp_pos.x) ∧
    (updatePred s dt trck pred).filter_pos_y =
      pred.filter_pos_y.filter ((updatePred s dt trck pred).mp_pos.y) := by
  by_cases h : trck.age > dt <;> simp [updatePred, h]

/-- Claim C6: in Solo mode with a non-empty predicted map, the frame candidate
is built from exactly the last entry in iteration order of the predicted map
(`rbegin`; with ids handed out in allocation order this is the most recently
inserted element): its offset position is fed through the two frame-level
position filters to give the frame centre, its aspected size is taken directly
as the frame size, and the frame-size filters are left untouched. -/
theorem C6_solo_mode (s : InstanceState) (h : s.predicted_elements ≠ [])
    (hm : s.track_mode = tracking_mode.SOLO) :
    (composeCandidate s).frame_pos_x =
      s.frame_pos_x.filter ((s.predicted_elements.getLast h).2.offset_pos.x) ∧
    (composeCandidate s).frame_pos_y =
      s.frame_pos_y.filter ((s.predicted_elements.getLast h).2.offset_pos.y) ∧
    (composeCandidate s).frame_pos =
      ⟨(s.frame_pos_x.filter ((s.predicted_elements.getLast h).2.offset_pos.x)).get,
        (s.frame_pos_y.filter ((s.predicted_elements.getLast h).2.offset_pos.y)).get⟩ ∧
    (composeCandidate s).frame_size = (s.predicted_elements.getLast h).2.aspected_size ∧
    (composeCandidate s).frame_size_x = s.frame_size_x ∧
    (composeCandidate s).frame_size_y = s.frame_size_y := by
  unfold composeCandidate
  rw [dif_neg h, if_pos hm]
  exact ⟨rfl, rfl, rfl, rfl, rfl, rfl⟩

/-- Concrete instance of `C6_solo_mode` on `solo_state`: only the last map
entry feeds the frame, and the frame-size filters stay untouched. -/
theorem C6_solo_mode_witness :
    solo_state.predicted_elements ≠ [] ∧
    (composeCandidate solo_state).frame_size =
      (solo_state.predicted_elements.getLast (by decide)).2.aspected_size ∧
    (composeCandidate solo_state).frame_pos_x =
      solo_state.frame_pos_x.filter
        ((solo_state.predicted_elements.getLast (by decide)).2.offset_pos.x) ∧
    (composeCandidate solo_state).frame_size_x = solo_state.frame_size_x :=
  ⟨by decide,
   (C6_solo_mode solo_state (by decide) rfl).2.2.2.1,
   (C6_solo_mode solo_state (by decide) rfl).1,
   (C6_solo_mode solo_state (by decide) rfl).2.2.2.2.1⟩

lemma mem_ageAndEvict_kept (dt thr : ℚ) (l : List track_el) (e : track_el) :
    e ∈ (ageAndEvictList dt thr l).1 ↔
      ∃ el ∈ l, e = { el with age := el.age + dt } ∧ el.age + dt < thr := by
  induction l with
  | nil => simp [ageAndEvictList]
  | cons a rest ih =>
      unfold ageAndEvictList
      dsimp only
      split_ifs with h
      · rw [ih]
        constructor
        · rintro ⟨el, hmem, he⟩
          exact ⟨el, List.mem_cons_of_mem _ hmem, he⟩
        · rintro ⟨el, hmem, he, hlt⟩
          rcases List.mem_cons.mp hmem with rfl | hmem'
          · exact absurd h (by simpa using not_le.mpr hlt)
          · exact ⟨el, hmem', he, hlt⟩
      · rw [List.mem_cons, ih]
        constructor
        · rintro (rfl | ⟨el, hmem, he⟩)
          · exact ⟨a, List.mem_cons_self _ _, rfl, by simpa using not_le.mp h⟩
          · exact ⟨el, List.mem_cons_of_mem _ hmem, he⟩
        · rintro ⟨el, hmem, he, hlt⟩
          rcases List.mem_cons.mp hmem with rfl | hmem'
          · exact Or.inl he
          · exact Or.inr ⟨el, hmem', he, hlt⟩

lemma mem_ageAndEvict_ev (dt thr : ℚ) (l : List track_el) (x : ℕ) :
    x ∈ (ageAndEvictList dt thr l).2 ↔
      ∃ el ∈ l, x = el.id ∧ thr ≤ el.age + dt := by
  induction l with
  | nil => simp [ageAndEvictList]
  | cons a rest ih =>
      unfold ageAndEvictList
      dsimp only
      split_ifs with h
      · rw [List.mem_cons, ih]
        constructor
        · rintro (rfl | ⟨el, hmem, he⟩)
          · exact ⟨a, List.mem_cons_self _ _, rfl, by simpa using h⟩
          · exact ⟨el, List.mem_cons_of_mem _ hmem, he⟩
        · rintro ⟨el, hmem, he, hle⟩
          rcases List.mem_cons.mp hmem with rfl | hmem'
          · exact Or.inl he
          · exact Or.inr ⟨el, hmem', he, hle⟩
      · rw [ih]
        constructor
        · rintro ⟨el, hmem, he⟩
          exact ⟨el, List.mem_cons_of_mem _ hmem, he⟩
        · rintro ⟨el, hmem, he, hle⟩
          rcases List.mem_cons.mp hmem with rfl | hmem'
          · exact absurd hle (by simpa using h)
          · exact ⟨el, hmem', he, hle⟩

lemma mem_keys_mapInsert (k' k : ℕ) (v : pred_el) (m : List (ℕ × pred_el)) :
    k' ∈ (mapInsert k v m).map Prod.fst ↔ k' = k ∨ k' ∈ m.map Prod.fst := by
  induction m with
  | nil => simp [mapInsert]
  | cons kv rest ih =>
      unfold mapInsert
      split_ifs with h1 h2
      · simp
      · subst h2
        simp
      · simp only [List.map_cons, List.mem_cons, ih]
        tauto

lemma mem_keys_foldl_predictStep (s : InstanceState) (dt : ℚ) (l : List track_el) :
    ∀ (m : List (ℕ × pred_el)) (k : ℕ),
      k ∈ (l.foldl (predictStep s dt) m).map Prod.fst ↔
        k ∈ m.map Prod.fst ∨ k ∈ l.map track_el.id := by
  induction l with
  | nil => simp
  | cons t rest ih =>
      intro m k
      simp only [List.foldl_cons, List.map_cons, List.mem_cons]
      rw [ih]
      unfold predictStep
      rw [mem_keys_mapInsert]
      tauto

lemma composeCandidate_tracked (s : InstanceState) :
    (composeCandidate s).tracked_elements = s.tracked_elements := by
  unfold composeCandidate
  split
  · rfl
  · split <;> rfl

lemma composeCandidate_predicted (s : InstanceState) :
    (composeCandidate s).predicted_elements = s.predicted_elements := by
  unfold composeCandidate
  split
  · rfl
  · split <;> rfl

lemma tracking_tick_tracked (s : InstanceState) (dt : ℚ) :
    (tracking_tick s dt).tracked_elements =
      (ageAndEvictList dt (eviction_threshold s.track_frequency) s.tracked_elements).1 := by
  have h1 : (tracking_tick s dt).tracked_elements =
      (composeCandidate (tick_predict (tick_age s dt) dt)).tracked_elements := rfl
  rw [h1, composeCandidate_tracked]
  rfl

lemma tracking_tick_predicted (s : InstanceState) (dt : ℚ) :
    (tracking_tick s dt).predicted_elements =
      (tick_age s dt).tracked_elements.foldl (predictStep (tick_age s dt) dt)
        ((tick_age s dt).predicted_elements) := by
  have h1 : (tracking_tick s dt).predicted_elements =
      (composeCandidate (tick_predict (tick_age s dt) dt)).predicted_elements := rfl
  rw [h1, composeCandidate_predicted]
  rfl

lemma tick_age_tracked (s : InstanceState) (dt : ℚ) :
    (tick_age s dt).tracked_elements =
      (ageAndEvictList dt (eviction_threshold s.track_frequency) s.tracked_elements).1 := rfl

lemma tick_age_predicted (s : InstanceState) (dt : ℚ) :
    (tick_age s dt).predicted_elements =
      s.predicted_elements.filter (fun kv =>
        !((ageAndEvictList dt (eviction_threshold s.track_frequency) s.tracked_elements).2.contains
          kv.1)) := rfl

/-- Claim C2: on every tick every tracked element's age grows by `dt`; an
element whose aged value reaches the threshold
`0.5 · (1 / (1 − trackingFrequency))` is removed during that same tick
together with its predicted companion (no predicted entry keyed by an evicted
track remains), while an element staying strictly below the threshold survives
with its age incremented and its predicted companion present. -/
theorem C2_aging_eviction (s : InstanceState) (dt : ℚ)
    (hnodup : (s.tracked_elements.map track_el.id).Nodup)
    (el : track_el) (hel : el ∈ s.tracked_elements) :
    (eviction_threshold s.track_frequency ≤ el.age + dt →
      el.id ∉ (tracking_tick s dt).tracked_elements.map track_el.id ∧
      el.id ∉ (tracking_tick s dt).predicted_elements.map Prod.fst) ∧
    (el.age + dt < eviction_threshold s.track_frequency →
      (∃ e ∈ (tracking_tick s dt).tracked_elements, e.id = el.id ∧ e.age = el.age + dt) ∧
      el.id ∈ (tracking_tick s dt).predicted_elements.map Prod.fst) := by
  constructor
  · intro h
    have hsurv : el.id ∉ ((ageAndEvictList dt (eviction_threshold s.track_frequency)
        s.tracked_elements).1).map track_el.id := by
      intro hmem
      obtain ⟨e, he, heid⟩ := List.mem_map.mp hmem
      obtain ⟨el2, hel2, he_eq, hlt⟩ := (mem_ageAndEvict_kept _ _ _ _).mp he
      have hid2 : el2.id = el.id := by
        rw [he_eq] at heid
        exact heid
      have : el2 = el := List.inj_on_of_nodup_map hnodup hel2 hel hid2
      subst this
      exact absurd h (not_le.mpr hlt)
    refine ⟨by rw [tracking_tick_tracked]; exact hsurv, ?_⟩
    rw [tracking_tick_predicted]
    intro hmem
    rw [mem_keys_foldl_predictStep] at hmem
    rcases hmem with hm0 | hids
    · rw [tick_age_predicted] at hm0
      obtain ⟨kv, hkv, hkid⟩ := List.mem_map.mp hm0
      obtain ⟨hkv_orig, hpred⟩ := List.mem_filter.mp hkv
      have hev : kv.1 ∈ (ageAndEvictList dt (eviction_threshold s.track_frequency)
          s.tracked_elements).2 := by
        rw [hkid]
        exact (mem_ageAndEvict_ev _ _ _ _).mpr ⟨el, hel, rfl, h⟩
      simp only [Bool.not_eq_eq_eq_not, Bool.not_true] at hpred
      have hcontains : (ageAndEvictList dt (eviction_threshold s.track_frequency)
          s.tracked_elements).2.contains kv.1 = true := List.elem_iff.mpr hev
      rw [hpred] at hcontains
      exact Bool.false_ne_true hcontains
    · rw [tick_age_tracked] at hids
      exact hsurv hids
  · intro h
    have hkept : ({ el with age := el.age + dt } : track_el) ∈
        (ageAndEvictList dt (eviction_threshold s.track_frequency) s.tracked_elements).1 :=
      (mem_ageAndEvict_kept _ _ _ _).mpr ⟨el, hel, rfl, h⟩
    constructor
    · rw [tracking_tick_tracked]
      exact ⟨{ el with age := el.age + dt }, hkept, rfl, rfl⟩
    · rw [tracking_tick_predicted, mem_keys_foldl_predictStep]
      right
      rw [tick_age_tracked]
      exact List.mem_map.mpr ⟨{ el with age := el.age + dt }, hkept, rfl⟩

/-- Concrete instance of `C2_aging_eviction` on `aging_state` with
`dt = 1/2`: element 1 (aged to the threshold 1) disappears from both maps,
element 2 (aged to 1/2) survives in both. -/
theorem C2_aging_eviction_witness :
    ((1:ℕ) ∉ (tracking_tick aging_state (mkRat 1 2)).tracked_elements.map track_el.id ∧
      (1:ℕ) ∉ (tracking_tick aging_state (mkRat 1 2)).predicted_elements.map Prod.fst) ∧
    ((∃ e ∈ (tracking_tick aging_state (mkRat 1 2)).tracked_elements,
        e.id = 2 ∧ e.age = 0 + mkRat 1 2) ∧
      (2:ℕ) ∈ (tracking_tick aging_state (mkRat 1 2)).predicted_elements.map Prod.fst) :=
  ⟨(C2_aging_eviction aging_state (mkRat 1 2) (by decide)
      { id := 1, pos := ⟨0, 0⟩, size := ⟨1, 1⟩, vel := ⟨0, 0⟩, age := mkRat 1 2,
        confidence := 1 } (by decide)).1 (by with_unfolding_all decide),
   (C2_aging_eviction aging_state (mkRat 1 2) (by decide)
      { id := 2, pos := ⟨9, 9⟩, size := ⟨1, 1⟩, vel := ⟨0, 0⟩, age := 0,
        confidence := 1 } (by decide)).2 (by with_unfolding_all decide)⟩

lemma scanBoxes_spec (elPos : Vec2) (maxD : ℚ) :
    ∀ (l pre : List track_el) (best : Option ℕ) (bestDst : ℚ),
      (best = none → bestDst = maxD ∧ ∀ b ∈ pre, maxD ≤ distSq b.pos elPos) →
      (∀ j, best = some j → ∃ box, pre[j]? = some box ∧
        bestDst = distSq box.pos elPos ∧ bestDst < maxD ∧
        ∀ b ∈ pre, bestDst ≤ distSq b.pos elPos) →
      (scanBoxes elPos maxD l pre.length best bestDst = none →
        ∀ b ∈ pre ++ l, maxD ≤ distSq b.pos elPos) ∧
      (∀ i, scanBoxes elPos maxD l pre.length best bestDst = some i →
        ∃ box, (pre ++ l)[i]? = some box ∧ distSq box.pos elPos < maxD ∧
          ∀ b ∈ pre ++ l, distSq box.pos elPos ≤ distSq b.pos elPos) := by
  intro l
  induction l with
  | nil =>
      intro pre best bestDst h1 h2
      constructor
      · intro hnone b hb
        obtain ⟨hd, hall⟩ := h1 hnone
        exact hall b (by simpa using hb)
      · intro i hsome
        obtain ⟨box, hbox, hdst, hlt, hall⟩ := h2 i hsome
        refine ⟨box, ?_, by rw [← hdst]; exact hlt, ?_⟩
        · rw [List.append_nil]
          exact hbox
        · intro x hx
          rw [← hdst]
          exact hall x (by simpa using hx)
  | cons b rest ih =>
      intro pre best bestDst h1 h2
      simp only [scanBoxes]
      have hlen : (pre ++ [b]).length = pre.length + 1 := by simp
      have heq : (pre ++ [b]) ++ rest = pre ++ b :: rest := by simp
      by_cases hacc : distSq b.pos elPos < bestDst ∧ distSq b.pos elPos < maxD
      · rw [if_pos hacc]
        have hprebound : ∀ x ∈ pre, bestDst ≤ distSq x.pos elPos := by
          cases hbest : best with
          | none =>
              intro x hx
              rw [(h1 hbest).1]
              exact (h1 hbest).2 x hx
          | some j =>
              intro x hx
              obtain ⟨box, _, _, _, hall⟩ := h2 j hbest
              exact hall x hx
        have inv1 : (some pre.length : Option ℕ) = none →
            distSq b.pos elPos = maxD ∧ ∀ x ∈ pre ++ [b], maxD ≤ distSq x.pos elPos := by
          intro hcontra
          simp at hcontra
        have inv2 : ∀ j, (some pre.length : Option ℕ) = some j →
            ∃ box, (pre ++ [b])[j]? = some box ∧
              distSq b.pos elPos = distSq box.pos elPos ∧
              distSq b.pos elPos < maxD ∧
              ∀ x ∈ pre ++ [b], distSq b.pos elPos ≤ distSq x.pos elPos := by
          intro j hj_eq
          have hj' : pre.length = j := Option.some.inj hj_eq
          subst hj'
          refine ⟨b, by simp [List.getElem?_concat_length], rfl, hacc.2, ?_⟩
          intro x hx
          rcases List.mem_append.mp hx with hx' | hx'
          · exact le_of_lt (lt_of_lt_of_le hacc.1 (hprebound x hx'))
          · rw [List.mem_singleton.mp hx']
        have hmain := ih (pre ++ [b]) (some pre.length) (distSq b.pos elPos) inv1 inv2
        rw [hlen, heq] at hmain
        exact hmain
      · rw [if_neg hacc]
        have inv1 : best = none →
            bestDst = maxD ∧ ∀ x ∈ pre ++ [b], maxD ≤ distSq x.pos elPos := by
          intro hbest
          obtain ⟨hd, hall⟩ := h1 hbest
          refine ⟨hd, fun x hx => ?_⟩
          rcases List.mem_append.mp hx with hx' | hx'
          · exact hall x hx'
          · rw [List.mem_singleton.mp hx']
            subst hd
            rcases not_and_or.mp hacc with hn | hn
            · exact not_lt.mp hn
            · exact not_lt.mp hn
        have inv2 : ∀ j, best = some j → ∃ box, (pre ++ [b])[j]? = some box ∧
            bestDst = distSq box.pos elPos ∧ bestDst < maxD ∧
            ∀ x ∈ pre ++ [b], bestDst ≤ distSq x.pos elPos := by
          intro j hbest
          obtain ⟨box, hbox, hdst, hlt, hall⟩ := h2 j hbest
          have hjlen : j < pre.length := by
            by_contra hcon
            push_neg at hcon
            rw [List.getElem?_eq_none hcon] at hbox
            exact Option.noConfusion hbox
          refine ⟨box, ?_, hdst, hlt, ?_⟩
          · rw [List.getElem?_append_left hjlen]
            exact hbox
          · intro x hx
            rcases List.mem_append.mp hx with hx' | hx'
            · exact hall x hx'
            · rw [List.mem_singleton.mp hx']
              by_contra hcon
              push_neg at hcon
              exact hacc ⟨hcon, lt_trans hcon hlt⟩
        have hmain := ih (pre ++ [b]) best bestDst inv1 inv2
        rw [hlen, heq] at hmain
        exact hmain

lemma bestMatch_spec (elPos : Vec2) (maxD : ℚ) (boxes : List track_el) :
    (bestMatch elPos maxD boxes = none → ∀ b ∈ boxes, maxD ≤ distSq b.pos elPos) ∧
    (∀ i, bestMatch elPos maxD boxes = some i →
      ∃ box, boxes[i]? = some box ∧ distSq box.pos elPos < maxD ∧
        ∀ b ∈ boxes, distSq box.pos elPos ≤ distSq b.pos elPos) := by
  have h := scanBoxes_spec elPos maxD boxes [] none maxD
    (fun _ => ⟨rfl, by simp⟩) (fun j hj => by simp at hj)
  simpa [bestMatch] using h

lemma associateTracks_unmatched_sub (maxD : ℚ) :
    ∀ (tracks boxes : List track_el) (b : track_el),
      b ∈ (associateTracks maxD tracks boxes).2 → b ∈ boxes := by
  intro tracks
  induction tracks with
  | nil => intro boxes b hb; exact hb
  | cons el rest ih =>
      intro boxes b hb
      unfold associateTracks at hb
      split at hb
      · exact ih boxes b hb
      · split at hb
        · exact ih boxes b hb
        · exact (List.eraseIdx_sublist boxes _).mem (ih _ b hb)

lemma mkBoxes_age_vel (dets : List Detection) :
    ∀ baseId, ∀ b ∈ mkBoxes baseId dets, b.age = 0 ∧ b.vel = ⟨0, 0⟩ := by
  induction dets with
  | nil => intro baseId b hb; simp [mkBoxes] at hb
  | cons d rest ih =>
      intro baseId b hb
      unfold mkBoxes at hb
      by_cases h : d.confidence < (0.5 : ℚ)
      · rw [if_pos h] at hb
        exact ih baseId b hb
      · rw [if_neg h] at hb
        rcases List.mem_cons.mp hb with rfl | hb'
        · exact ⟨rfl, rfl⟩
        · exact ih (baseId + 1) b hb'

lemma associateTracks_cons (maxD : ℚ) (el : track_el) (rest boxes : List track_el) :
    associateTracks maxD (el :: rest) boxes =
      match bestMatch el.pos maxD boxes with
      | none =>
          (el :: (associateTracks maxD rest boxes).1,
            (associateTracks maxD rest boxes).2)
      | some i =>
          match boxes[i]? with
          | none =>
              (el :: (associateTracks maxD rest boxes).1,
                (associateTracks maxD rest boxes).2)
          | some box =>
              (matched_el el box ::
                  (associateTracks maxD rest (boxes.eraseIdx i)).1,
                (associateTracks maxD rest (boxes.eraseIdx i)).2) := rfl

/-- Claim C3: association gives priority to existing tracks, iterated in
order; each track is matched to the unmatched detection of smallest centroid
distance, accepted only strictly below the maximum distance (stated on squared
distances, which order exactly as the Euclidean ones); acceptance overwrites
position and size with the detection's, sets velocity to
`oldPosition − newPosition`, resets age to 0, copies confidence and removes
the detection from the unmatched pool; every detection still unmatched after
all tracks are processed becomes a new tracked element with age 0 and zero
velocity, appended after the existing tracks. -/
theorem C3_association (maxD : ℚ) (el : track_el) (rest boxes : List track_el)
    (baseId : ℕ) (dets : List Detection) (s : InstanceState) :
    (bestMatch el.pos maxD boxes = none → ∀ b ∈ boxes, maxD ≤ distSq b.pos el.pos) ∧
    (∀ i, bestMatch el.pos maxD boxes = some i →
      ∃ box, boxes[i]? = some box ∧ distSq box.pos el.pos < maxD ∧
        ∀ b ∈ boxes, distSq box.pos el.pos ≤ distSq b.pos el.pos) ∧
    (∀ i box, bestMatch el.pos maxD boxes = some i → boxes[i]? = some box →
      associateTracks maxD (el :: rest) boxes =
        (matched_el el box :: (associateTracks maxD rest (boxes.eraseIdx i)).1,
          (associateTracks maxD rest (boxes.eraseIdx i)).2) ∧
      matched_el el box =
        { el with
          pos := box.pos, size := box.size,
          vel := ⟨el.pos.x - box.pos.x, el.pos.y - box.pos.y⟩, age := 0,
          confidence := box.confidence }) ∧
    (bestMatch el.pos maxD boxes = none →
      associateTracks maxD (el :: rest) boxes =
        (el :: (associateTracks maxD rest boxes).1, (associateTracks maxD rest boxes).2)) ∧
    (∀ b ∈ (associateTracks maxD (el :: rest) boxes).2, b ∈ boxes) ∧
    (∀ b ∈ mkBoxes baseId dets, b.age = 0 ∧ b.vel = ⟨0, 0⟩) ∧
    (dets.length ≠ 0 →
      (nvar_facedetection_process baseId dets s).tracked_elements =
        (associateTracks (max_dst_sq s.size.1 s.size.2 s.track_frequency)
            s.tracked_elements (mkBoxes baseId dets)).1 ++
          (associateTracks (max_dst_sq s.size.1 s.size.2 s.track_frequency)
            s.tracked_elements (mkBoxes baseId dets)).2) := by
  refine ⟨(bestMatch_spec el.pos maxD boxes).1, (bestMatch_spec el.pos maxD boxes).2,
    ?_, ?_, associateTracks_unmatched_sub maxD (el :: rest) boxes,
    mkBoxes_age_vel dets baseId, ?_⟩
  · intro i box hbm hbox
    constructor
    · rw [associateTracks_cons, hbm]
      dsimp only
      rw [hbox]
    · rfl
  · intro hbm
    rw [associateTracks_cons, hbm]
  · intro hne
    unfold nvar_facedetection_process
    rw [if_neg hne]

/-- Concrete instance of `C3_association`: with one track at the origin and
boxes at distance² 1 and 9 under threshold 100, the nearer box (index 0) is
matched, minimal among all candidates, and association updates the track in
place while removing that box from the pool. -/
theorem C3_association_witness :
    (∃ box, [w_box1, w_box2][0]? = some box ∧ distSq box.pos w_el.pos < 100 ∧
      ∀ b ∈ [w_box1, w_box2], distSq box.pos w_el.pos ≤ distSq b.pos w_el.pos) ∧
    associateTracks 100 [w_el] [w_box1, w_box2] =
      (matched_el w_el w_box1 ::
          (associateTracks 100 [] ([w_box1, w_box2].eraseIdx 0)).1,
        (associateTracks 100 [] ([w_box1, w_box2].eraseIdx 0)).2) :=
  ⟨(C3_association 100 w_el [] [w_box1, w_box2] 0 [] initial_state).2.1 0
      (by with_unfolding_all decide),
   ((C3_association 100 w_el [] [w_box1, w_box2] 0 [] initial_state).2.2.1 0 w_box1
      (by with_unfolding_all decide) (by with_unfolding_all decide)).1⟩

lemma associateTracks_ids (maxD : ℚ) :
    ∀ (tracks boxes : List track_el),
      (associateTracks maxD tracks boxes).1.map track_el.id = tracks.map track_el.id := by
  intro tracks
  induction tracks with
  | nil => intro boxes; rfl
  | cons el rest ih =>
      intro boxes
      rw [associateTracks_cons]
      split
      · simp [ih]
      · split
        · simp [ih]
        · simp [matched_el, ih]

/-- Counterexample to claim C7 as stated: right after
`nvar_facedetection_process` creates a track from an unmatched detection
(lines 1079-1082), that track has no predicted companion yet — the companion
only appears in the next `tracking_tick` — so the predicted key set does not
equal the live track id set at every observation point. -/
theorem C7_counterexample :
    ¬ (∀ k : ℕ, k ∈ c7_state.predicted_elements.map Prod.fst ↔
        k ∈ c7_state.tracked_elements.map track_el.id) := by
  intro hiff
  have h1 : (0:ℕ) ∈ c7_state.tracked_elements.map track_el.id := by
    with_unfolding_all decide
  have h2 : (0:ℕ) ∉ c7_state.predicted_elements.map Prod.fst := by
    with_unfolding_all decide
  exact h2 ((hiff 0).mpr h1)

/-- Claim C7, amended: the predicted key set is always a subset of the live
track ids — `nvar_facedetection_process` preserves the subset (it never
touches the predicted map, and every existing track id survives association) —
and every `tracking_tick` restores the full one-to-one correspondence: after a
tick the predicted key set equals the live track id set (companions are
created for new tracks in the prediction loop and destroyed in lock-step with
eviction). -/
theorem C7_predicted_tracked (s : InstanceState) (dt : ℚ) (baseId : ℕ)
    (dets : List Detection)
    (hsub : ∀ k ∈ s.predicted_elements.map Prod.fst,
      k ∈ s.tracked_elements.map track_el.id) :
    (∀ k ∈ (nvar_facedetection_process baseId dets s).predicted_elements.map Prod.fst,
      k ∈ (nvar_facedetection_process baseId dets s).tracked_elements.map track_el.id) ∧
    (∀ k, k ∈ (tracking_tick s dt).predicted_elements.map Prod.fst ↔
      k ∈ (tracking_tick s dt).tracked_elements.map track_el.id) := by
  constructor
  · intro k hk
    unfold nvar_facedetection_process at hk ⊢
    by_cases hd : dets.length = 0
    · rw [if_pos hd] at hk ⊢
      exact hsub k hk
    · rw [if_neg hd] at hk ⊢
      have hk' : k ∈ s.tracked_elements.map track_el.id := hsub k hk
      rw [List.map_append, List.mem_append]
      left
      rw [associateTracks_ids]
      exact hk'
  · intro k
    constructor
    · intro hk
      rw [tracking_tick_predicted, mem_keys_foldl_predictStep] at hk
      rw [tracking_tick_tracked]
      rcases hk with hm0 | hids
      · rw [tick_age_predicted] at hm0
        obtain ⟨kv, hkv, hkid⟩ := List.mem_map.mp hm0
        obtain ⟨hkv_orig, hpred⟩ := List.mem_filter.mp hkv
        have hk_orig : k ∈ s.predicted_elements.map Prod.fst :=
          List.mem_map.mpr ⟨kv, hkv_orig, hkid⟩
        obtain ⟨el, hel, helid⟩ := List.mem_map.mp (hsub k hk_orig)
        simp only [Bool.not_eq_eq_eq_not, Bool.not_true] at hpred
        have hnotev : el.age + dt < eviction_threshold s.track_frequency := by
          by_contra hcon
          push_neg at hcon
          have hev : kv.1 ∈ (ageAndEvictList dt (eviction_threshold s.track_frequency)
              s.tracked_elements).2 := by
            rw [hkid, ← helid]
            exact (mem_ageAndEvict_ev _ _ _ _).mpr ⟨el, hel, rfl, hcon⟩
          have hcontains : (ageAndEvictList dt (eviction_threshold s.track_frequency)
              s.tracked_elements).2.contains kv.1 = true := List.elem_iff.mpr hev
          rw [hpred] at hcontains
          exact Bool.false_ne_true hcontains
        have hkept : ({ el with age := el.age + dt } : track_el) ∈
            (ageAndEvictList dt (eviction_threshold s.track_frequency)
              s.tracked_elements).1 :=
          (mem_ageAndEvict_kept _ _ _ _).mpr ⟨el, hel, rfl, hnotev⟩
        exact List.mem_map.mpr ⟨_, hkept, helid⟩
      · rw [tick_age_tracked] at hids
        exact hids
    · intro hk
      rw [tracking_tick_predicted, mem_keys_foldl_predictStep]
      right
      rw [tracking_tick_tracked] at hk
      rw [tick_age_tracked]
      exact hk

/-- Concrete instance of `C7_predicted_tracked` on `aging_state`: after a
detection pass the surviving subset relation holds for track 1, and after a
tick the predicted key 1 exists exactly when track 1 is alive. -/
theorem C7_predicted_tracked_witness :
    (1:ℕ) ∈ (nvar_facedetection_process 5 [⟨10, 10, 4, 4, mkRat 9 10⟩]
      aging_state).tracked_elements.map track_el.id ∧
    ((1:ℕ) ∈ (tracking_tick aging_state (mkRat 1 4)).predicted_elements.map Prod.fst ↔
      (1:ℕ) ∈ (tracking_tick aging_state (mkRat 1 4)).tracked_elements.map track_el.id) :=
  ⟨(C7_predicted_tracked aging_state (mkRat 1 4) 5 [⟨10, 10, 4, 4, mkRat 9 10⟩]
      (by with_unfolding_all decide)).1 1 (by with_unfolding_all decide),
   (C7_predicted_tracked aging_state (mkRat 1 4) 5 [⟨10, 10, 4, 4, mkRat 9 10⟩]
      (by with_unfolding_all decide)).2 1⟩

/-- Claim C8: a frequency text parsing as `v` without an `s` yields the period
`1/v` (so `"N Hz"` gives `1/N` seconds), one with an `s` yields `v` seconds
(so `"N s"` gives `N`), and malformed text falls back to the default numeric
value `0` of the parse buffer — `update_track_frequency` is total, so no error
ever reaches the caller; absent text keeps the previous period. -/
theorem C8_frequency_parsing (prev : ℚ) (t : List Char) (v : ℚ) :
    (parse_float_text t = some v → t.contains 's' = false →
      update_track_frequency prev (some t) = 1 / v) ∧
    (parse_float_text t = some v → t.contains 's' = true →
      update_track_frequency prev (some t) = v) ∧
    (parse_float_text t = none → update_track_frequency prev (some t) = 0) ∧
    update_track_frequency prev none = prev := by
  refine ⟨fun h1 h2 => ?_, fun h1 h2 => ?_, fun h1 => ?_, rfl⟩
  · unfold update_track_frequency
    dsimp only
    rw [h1]
    dsimp only
    rw [if_neg (by rw [h2]; exact Bool.false_ne_true)]
  · unfold update_track_frequency
    dsimp only
    rw [h1]
    dsimp only
    rw [if_pos h2]
  · unfold update_track_frequency
    dsimp only
    rw [h1]

/-- Concrete instances of `C8_frequency_parsing`: `"20 Hz"` gives a period of
`1/20` seconds, `"2 s"` gives 2 seconds, and the unparsable `"abc"` gives the
fallback 0. -/
theorem C8_frequency_parsing_witness :
    update_track_frequency 7 (some ['2', '0', ' ', 'H', 'z']) = 1 / 20 ∧
    update_track_frequency 7 (some ['2', ' ', 's']) = 2 ∧
    update_track_frequency 7 (some ['a', 'b', 'c']) = 0 ∧
    update_track_frequency 7 none = 7 :=
  ⟨(C8_frequency_parsing 7 ['2', '0', ' ', 'H', 'z'] 20).1
      (by with_unfolding_all decide) (by with_unfolding_all decide),
   (C8_frequency_parsing 7 ['2', ' ', 's'] 2).2.1
      (by with_unfolding_all decide) (by with_unfolding_all decide),
   (C8_frequency_parsing 7 ['a', 'b', 'c'] 0).2.2.1 (by with_unfolding_all decide),
   (C8_frequency_parsing 7 [] 0).2.2.2⟩

/-- Claim C9: if the detection backend raises during the unload or load step
of a provider switch, the task swallows the exception (it is total, nothing
propagates to the tick loop) and terminates with the readiness flag false —
regardless of the previous readiness — so `video_render` skips the filter and
it degrades to an inert passthrough; the flag ends up true exactly when both
unload and load succeeded. -/
theorem C9_provider_switch_errors (prevReady : Bool) (u l : Except String Unit)
    (t : Bool) (w h : ℕ) :
    (((∃ e, u = Except.error e) ∨ (∃ e, l = Except.error e)) →
      task_switch_provider prevReady u l = false ∧
      video_render_skips (task_switch_provider prevReady u l) t w h = true) ∧
    (task_switch_provider prevReady u l = true ↔
      u = Except.ok () ∧ l = Except.ok ()) := by
  cases u with
  | error e => simp [task_switch_provider, video_render_skips]
  | ok a =>
      cases l with
      | error e =>
          constructor
          · intro _
            simp [task_switch_provider, video_render_skips]
          · simp [task_switch_provider]
      | ok b =>
          constructor
          · rintro (⟨e, he⟩ | ⟨e, he⟩) <;> exact Except.noConfusion he
          · simp [task_switch_provider]

/-- Concrete instance of `C9_provider_switch_errors`: a failing unload leaves
the session not ready and `video_render` skips the filter. -/
theorem C9_provider_switch_errors_witness :
    task_switch_provider true (Except.error "backend failed") (Except.ok ()) = false ∧
    video_render_skips
      (task_switch_provider true (Except.error "backend failed") (Except.ok ()))
      true 1920 1080 = true :=
  (C9_provider_switch_errors true (Except.error "backend failed") (Except.ok ())
    true 1920 1080).1 (Or.inl ⟨"backend failed", rfl⟩)

/-- Claim C10: when `update()` regenerates the filters for new tuning
parameters, every per-element filter and every frame-level filter keeps its
current smoothed estimate (`get()` is unchanged, having been used to seed the
new filter) while only the noise parameters and the error covariance are
reset; keys and the non-filter fields of the predicted elements are
untouched. -/
theorem C10_filter_regeneration (s : InstanceState) (ms fs : ℚ) :
    (∀ kv ∈ (update_filters s ms fs).predicted_elements,
      ∃ kv0 ∈ s.predicted_elements, kv.1 = kv0.1 ∧
        kv.2.filter_pos_x.get = kv0.2.filter_pos_x.get ∧
        kv.2.filter_pos_y.get = kv0.2.filter_pos_y.get ∧
        kv.2.filter_size_x.get = kv0.2.filter_size_x.get ∧
        kv.2.filter_size_y.get = kv0.2.filter_size_y.get ∧
        kv.2.filter_pos_x.pnc = lerp 1 (1 / 100000) ms ∧
        kv.2.filter_pos_x.mnc = lerp (1 / 1000) 1000 ms ∧
        kv.2.filter_pos_x.eec = ST_KALMAN_EEC ∧
        kv.2.mp_pos = kv0.2.mp_pos) ∧
    (update_filters s ms fs).frame_pos_x.get = s.frame_pos_x.get ∧
    (update_filters s ms fs).frame_pos_y.get = s.frame_pos_y.get ∧
    (update_filters s ms fs).frame_size_x.get = s.frame_size_x.get ∧
    (update_filters s ms fs).frame_size_y.get = s.frame_size_y.get ∧
    (update_filters s ms fs).frame_pos_x.pnc = lerp 1 (1 / 100000) fs ∧
    (update_filters s ms fs).frame_pos_x.mnc = 1 ∧
    (update_filters s ms fs).frame_pos_x.eec = ST_KALMAN_EEC := by
  refine ⟨?_, rfl, rfl, rfl, rfl, rfl, rfl, rfl⟩
  intro kv hkv
  simp only [update_filters] at hkv
  obtain ⟨kv0, h0, heq⟩ := List.mem_map.mp hkv
  subst heq
  exact ⟨kv0, h0, rfl, rfl, rfl, rfl, rfl, rfl, rfl, rfl, rfl⟩

/-- Concrete instance of `C10_filter_regeneration` on `c10_state`. -/
theorem C10_filter_regeneration_witness :
    ((3:ℕ), c10_expected) ∈ (update_filters c10_state 0 0).predicted_elements ∧
    (∃ kv0 ∈ c10_state.predicted_elements, ((3:ℕ), c10_expected).1 = kv0.1 ∧
      ((3:ℕ), c10_expected).2.filter_pos_x.get = kv0.2.filter_pos_x.get ∧
      ((3:ℕ), c10_expected).2.filter_pos_y.get = kv0.2.filter_pos_y.get ∧
      ((3:ℕ), c10_expected).2.filter_size_x.get = kv0.2.filter_size_x.get ∧
      ((3:ℕ), c10_expected).2.filter_size_y.get = kv0.2.filter_size_y.get ∧
      ((3:ℕ), c10_expected).2.filter_pos_x.pnc = lerp 1 (1 / 100000) 0 ∧
      ((3:ℕ), c10_expected).2.filter_pos_x.mnc = lerp (1 / 1000) 1000 0 ∧
      ((3:ℕ), c10_expected).2.filter_pos_x.eec = ST_KALMAN_EEC ∧
      ((3:ℕ), c10_expected).2.mp_pos = kv0.2.mp_pos) ∧
    (update_filters c10_state 0 0).frame_pos_x.get = c10_state.frame_pos_x.get :=
  ⟨by with_unfolding_all decide,
   (C10_filter_regeneration c10_state 0 0).1 (3, c10_expected)
     (by with_unfolding_all decide),
   (C10_filter_regeneration c10_state 0 0).2.1⟩

end Autoframing
